import Mathlib

/-!
Verification development for the sandbox provisioning and safe-execution
subsystem of the AstraTune repository.

The Lean definitions below are a shallow embedding of the Python sources:

* `src/sandbox/executor.py`, `src/sandbox/mysql_executor.py`,
  `src/sandbox/pg_executor.py` — dialect-specific database executors;
* `src/sandbox/table_mapper.py` — the bidirectional table-name registry and
  the regex-based SQL rewriter;
* `src/sandbox/sandbox_manager.py` — sandbox provisioning, batched data
  copy and disposal;
* `src/tools/sandbox_tool.py` — the gateway operation `execute_sql`.

Modelling conventions:

* Python exceptions become `Except String` results.  Because the real
  database objects mutate in place, every effectful operation returns its
  (possibly updated) state *in addition to* the `Except` outcome, so a
  partially failed operation keeps its partial state changes, exactly as a
  live connection would.
* The database engines (pymysql / psycopg2 cursors) are external to the
  repository; they are abstracted as parameters (`Engine`, `ExecAPI`), and
  standard SQL semantics (e.g. `LIMIT n` returns `min n count` rows) appear
  as explicit hypotheses of theorems where they are needed.
* Wall-clock timing fields (`execution_time`, `execution_time_ms`) are
  omitted from `StmtResult`: real time is not representable in this
  embedding and no claim depends on it.  All other result fields are kept.
-/

set_option maxRecDepth 8192

namespace AstraTune

/-! ## Python string helpers -/

/-- Python's whitespace set for `str.strip()`: space, tab, newline,
carriage return, vertical tab, form feed. -/
def pyIsSpace (c : Char) : Bool :=
  c = ' ' || c = '\t' || c = '\n' || c = '\r' || c = '\x0b' || c = '\x0c'

/-- Python `s.strip()` on a character list. -/
def pyStripL (l : List Char) : List Char :=
  ((l.dropWhile pyIsSpace).reverse.dropWhile pyIsSpace).reverse

/-- Python `s.strip()`. -/
def pyStrip (s : String) : String := (pyStripL s.toList).asString

/-- Python `s.split(sep)` for a one-character separator: split at every
occurrence, keeping empty pieces. -/
def pySplitChar (sep : Char) : List Char → List (List Char)
  | [] => [[]]
  | c :: cs =>
    if c = sep then [] :: pySplitChar sep cs
    else
      match pySplitChar sep cs with
      | [] => [[c]]
      | g :: gs => (c :: g) :: gs

/-- Python `sql.split(';')` followed by `strip()` and dropping empty pieces,
as done at the top of both `MySQLExecutor.execute` and `PGExecutor.execute`:
`[s.strip() for s in sql.split(';') if s.strip()]`. -/
def pySplitStatements (sql : String) : List String :=
  (((pySplitChar ';' sql.toList).map (fun l => (pyStripL l).asString)).filter
    (fun s => s ≠ ""))

/-- `s.startswith((p1, p2, ...))` in Python: true iff some listed prefix
starts the string. -/
def startsWithAny (s : String) (pats : List String) : Bool :=
  pats.any (fun p => p.toList.isPrefixOf s.toList)

/-- Python `s.upper()` (ASCII). -/
def pyUpper (s : String) : String := (s.toList.map Char.toUpper).asString

/-- MySQL read-statement classification from `MySQLExecutor.execute`:
`stmt.strip().upper().startswith(('SELECT', 'SHOW', 'EXPLAIN', 'DESC', 'DESCRIBE'))`. -/
def mysqlIsRead (stmt : String) : Bool :=
  startsWithAny (pyUpper (pyStrip stmt)) ["SELECT", "SHOW", "EXPLAIN", "DESC", "DESCRIBE"]

/-- Character scanner for `--`-comment removal; the flag records whether
the scan position is inside a comment (which a newline ends). -/
def stripLCAux : Bool → List Char → List Char
  | _, [] => []
  | true, '\n' :: rest => '\n' :: stripLCAux false rest
  | true, _ :: rest => stripLCAux true rest
  | false, '-' :: '-' :: rest => stripLCAux true rest
  | false, c :: rest => c :: stripLCAux false rest

/-- Removal of `--`-to-end-of-line SQL comments, the effect of
`re.sub(r'--.*', '', stmt)` in `PGExecutor.execute` (`.` does not match a
newline, so the newline itself is kept). -/
def stripLineComments (l : List Char) : List Char := stripLCAux false l

/-- PostgreSQL read-statement classification from `PGExecutor.execute`:
comments stripped, then
`.strip().upper().startswith(('SELECT', 'SHOW', 'EXPLAIN', 'WITH'))`. -/
def pgIsRead (stmt : String) : Bool :=
  startsWithAny (pyUpper (pyStrip (stripLineComments stmt.toList).asString))
    ["SELECT", "SHOW", "EXPLAIN", "WITH"]

/-! ## Values and rows

A `Value` is a cell value as obtained from a `DictCursor` row.  Python's
`isinstance(val, (int, float))` test in `SandboxManager._batch_copy_data`
distinguishes `None`, numbers and everything else:

* `vNull` models Python `None`;
* `vInt` models an `int` (Python `str(int)` agrees with `toString : Int → String`);
* `vFloat` models a `float`; its payload is the decimal string Python's
  `str()` produces for it (IEEE-754 formatting itself is outside the model);
* `vStr` models any other value through its `str()` form (actual strings,
  dates, byte strings, ...). -/
inductive Value where
  | vNull : Value
  | vInt : Int → Value
  | vFloat : String → Value
  | vStr : String → Value
deriving DecidableEq, Repr

/-- A row as returned by a dict cursor: ordered column/value pairs. -/
structure Row where
  cells : List (String × Value)
deriving DecidableEq, Repr

/-- Python `str(val)` for the modelled values. -/
def pyStr : Value → String
  | .vNull => "None"
  | .vInt n => toString n
  | .vFloat s => s
  | .vStr s => s

/-- Single-character replace-all on a character list.  Python
`str.replace(c, r)` with a one-character pattern substitutes every
occurrence, which is exactly this character-wise substitution. -/
def replaceChar (c : Char) (r : List Char) : List Char → List Char
  | [] => []
  | x :: xs => (if x = c then r else [x]) ++ replaceChar c r xs

/-- The escaping pipeline of `SandboxManager._batch_copy_data`:
`str(val).replace("\\", "\\\\").replace("'", "\\'")` — first double every
backslash, then prefix every single quote with a backslash. -/
def pyEscape (s : String) : String :=
  (replaceChar '\'' ['\\', '\''] (replaceChar '\\' ['\\', '\\'] s.toList)).asString

/-- Serialization of one value into the `VALUES` list of a batched INSERT,
from `SandboxManager._batch_copy_data`: `None` becomes the literal `NULL`,
ints and floats are emitted unquoted via `str`, everything else is escaped
and wrapped in single quotes. -/
def pySqlLiteral : Value → String
  | .vNull => "NULL"
  | .vInt n => toString n
  | .vFloat s => s
  | .vStr s => "'" ++ pyEscape (pyStr (.vStr s)) ++ "'"

/-! ## Statement results and the two executors -/

/-- One element of the list built by `execute` in either executor: a
read statement carries its fetched rows, any other statement carries the
cursor's affected-row count (the constant message `"执行成功"` and the
timing fields are not modelled; see the file header). -/
inductive StmtResult where
  | query : String → List Row → StmtResult
  | write : String → Int → StmtResult
deriving DecidableEq, Repr

/-- The underlying driver cursor, external to the repository: from a
session state and one SQL statement it yields the updated session state
and either an error or the pair (fetchable rows, affected-row count).
The executor, not the engine, decides which half of the pair to keep. -/
def Engine (ε : Type) : Type := ε → String → ε × Except String (List Row × Int)

/-- A live connection: the committed session state and the pending
(uncommitted) state the cursor works on.  `commit` copies pending over
committed, `rollback` copies committed over pending. -/
structure Conn (ε : Type) where
  committed : ε
  pending : ε
deriving DecidableEq, Repr

/-- The statement loop shared by both `execute` implementations: run each
statement in order on the pending state, classifying each result with the
dialect's read test; stop at the first engine error. -/
def runStmts (eng : Engine ε) (isRead : String → Bool) (fetch : Bool) :
    ε → List String → ε × Except String (List StmtResult)
  | st, [] => (st, .ok [])
  | st, s :: rest =>
    match eng st s with
    | (st', .error e) => (st', .error e)
    | (st', .ok (rows, rc)) =>
      let r := if fetch && isRead s then StmtResult.query s rows else StmtResult.write s rc
      match runStmts eng isRead fetch st' rest with
      | (st'', .error e) => (st'', .error e)
      | (st'', .ok rs) => (st'', .ok (r :: rs))

/-- `MySQLExecutor.execute` (src/sandbox/mysql_executor.py:46-105).
`none` for the connection models `self.connection` being unset, whose check
precedes the `try` block and raises `RuntimeError`.  On success the batch
is committed and `all_results if fetch else None` is returned.  On any
statement error the batch is rolled back and — the `except` block contains
no `raise` — the function falls off its end and returns Python `None`,
which is modelled as the *normal* result `.ok none`. -/
def mysqlExecute (eng : Engine ε) (conn : Option (Conn ε)) (sql : String) (fetch : Bool) :
    Option (Conn ε) × Except String (Option (List StmtResult)) :=
  match conn with
  | none => (none, .error "数据库未连接，请先调用connect()")
  | some c =>
    match runStmts eng mysqlIsRead fetch c.pending (pySplitStatements sql) with
    | (p, .ok rs) => (some ⟨p, p⟩, .ok (if fetch then some rs else none))
    | (_, .error _) => (some ⟨c.committed, c.committed⟩, .ok none)

/-- `PGExecutor.execute` (src/sandbox/pg_executor.py:31-94).  Identical to
the MySQL variant except for the read classification and — crucially — the
`raise` in the `except` block: the rollback happens and the error
propagates. -/
def pgExecute (eng : Engine ε) (conn : Option (Conn ε)) (sql : String) (fetch : Bool) :
    Option (Conn ε) × Except String (Option (List StmtResult)) :=
  match conn with
  | none => (none, .error "数据库未连接,请先调用connect()")
  | some c =>
    match runStmts eng pgIsRead fetch c.pending (pySplitStatements sql) with
    | (p, .ok rs) => (some ⟨p, p⟩, .ok (if fetch then some rs else none))
    | (_, .error e) => (some ⟨c.committed, c.committed⟩, .error e)

/-! ## The table-name mapper (src/sandbox/table_mapper.py)

Python dicts are insertion-ordered; assigning to an existing key updates in
place.  Both dicts of `TableMapper` are therefore modelled as ordered
association lists with an in-place-update write (`assocSet`). -/

/-- `d[k] = v` on an insertion-ordered dict: update in place if the key is
present, otherwise append. -/
def assocSet (l : List (String × String)) (k v : String) : List (String × String) :=
  match l with
  | [] => [(k, v)]
  | (k', v') :: rest => if k' = k then (k, v) :: rest else (k', v') :: assocSet rest k v

/-- The state of a `TableMapper`: forward dict `mapping`
(original → sandbox) and `reverse_mapping` (sandbox → original). -/
structure TableMapper where
  mapping : List (String × String)
  reverse_mapping : List (String × String)
deriving DecidableEq, Repr

/-- The freshly constructed mapper: both dicts empty. -/
def TableMapper.empty : TableMapper := ⟨[], []⟩

/-- `TableMapper.add_mapping` (src/sandbox/table_mapper.py:14-24): two
unconditional dict assignments; no duplicate check, no exception — the
function is total. -/
def add_mapping (m : TableMapper) (original_name sandbox_name : String) : TableMapper :=
  ⟨assocSet m.mapping original_name sandbox_name,
   assocSet m.reverse_mapping sandbox_name original_name⟩

/-- `TableMapper.get_sandbox_name`: forward lookup, input returned
unchanged when unmapped. -/
def get_sandbox_name (m : TableMapper) (original_name : String) : String :=
  (m.mapping.lookup original_name).getD original_name

/-- `TableMapper.get_original_name`: reverse lookup, input returned
unchanged when unmapped. -/
def get_original_name (m : TableMapper) (sandbox_name : String) : String :=
  (m.reverse_mapping.lookup sandbox_name).getD sandbox_name

/-- `TableMapper.clear` (src/sandbox/table_mapper.py:97-101): empties both
dicts. -/
def TableMapper.clear (_ : TableMapper) : TableMapper := ⟨[], []⟩

/-- The registry invariant stated by the specification: no two mappings
share an original name, no two share a sandbox name, and reverse lookup is
the exact inverse of forward lookup. -/
def tmInv (m : TableMapper) : Prop :=
  (m.mapping.map Prod.fst).Nodup ∧
  (m.reverse_mapping.map Prod.fst).Nodup ∧
  (∀ p ∈ m.mapping, (p.2, p.1) ∈ m.reverse_mapping) ∧
  (∀ p ∈ m.reverse_mapping, (p.2, p.1) ∈ m.mapping)

instance (m : TableMapper) : Decidable (tmInv m) := by
  unfold tmInv; infer_instance

/-! ### The regex-based rewriter `replace_table_names`

`TableMapper.replace_table_names` (src/sandbox/table_mapper.py:50-86)
applies, longest original name first, two `re.sub` calls per mapping, both
with `re.IGNORECASE`:

* pattern 1 — the literal `` `name` `` (backtick-delimited);
* pattern 2 — `\b name \b` (word-boundary-delimited bare name).

`re.escape` makes the name a literal, so both patterns are literal
searches; `re.sub` replaces non-overlapping matches left to right and
resumes *after* the matched text of the original string. -/

/-- `\w` for the ASCII identifiers at play: letters, digits, underscore. -/
def isWordChar (c : Char) : Bool := c.isAlphanum || c = '_'

/-- Word-character test on an optional character; the edges of the string
count as non-word, as `\b` prescribes. -/
def isWordB : Option Char → Bool
  | none => false
  | some c => isWordChar c

/-- Case-insensitive prefix match of a literal pattern (`re.IGNORECASE`). -/
def matchCI : List Char → List Char → Bool
  | [], _ => true
  | _ :: _, [] => false
  | p :: ps, c :: cs => (p.toLower = c.toLower) && matchCI ps cs

/-- Replace-all of a non-empty case-insensitive literal (head `p`, tail
`ps`) by `repl`, scanning left to right and resuming after each match:
`re.sub(re.escape(pat), repl, s, flags=re.IGNORECASE)`.  The `skip`
counter consumes the remaining characters of a match just emitted, so the
scan resumes exactly after the matched text. -/
def subCIAux (p : Char) (ps repl : List Char) : Nat → List Char → List Char
  | _, [] => []
  | skip + 1, _ :: cs => subCIAux p ps repl skip cs
  | 0, c :: cs =>
    if matchCI (p :: ps) (c :: cs) then
      repl ++ subCIAux p ps repl ps.length cs
    else
      c :: subCIAux p ps repl 0 cs

/-- `re.sub` with a literal pattern, case-insensitive.  An empty pattern
never arises from a registered table name and is treated as a no-op. -/
def pySubCI (pat repl s : String) : String :=
  match pat.toList with
  | [] => s
  | p :: ps => (subCIAux p ps repl.toList 0 s.toList).asString

/-- Replace-all of a non-empty case-insensitive literal additionally
guarded by `\b` on both sides.  `prev` is the character of the *original*
string immediately before the scan position (`none` at the start); `\b`
holds where exactly one neighbour is a word character.  On a match the
replacement is emitted and the matched characters are consumed through the
`skip` counter, which also keeps `prev` tracking the original text, so the
scan resumes after the matched text exactly as `re.sub` does. -/
def subWordCIAux (p : Char) (ps repl : List Char) :
    Nat → Option Char → List Char → List Char
  | _, _, [] => []
  | skip + 1, _, c :: cs => subWordCIAux p ps repl skip (some c) cs
  | 0, prev, c :: cs =>
    if matchCI (p :: ps) (c :: cs)
        && (isWordB prev != isWordChar c)
        && (isWordB (((c :: cs).take (ps.length + 1)).getLast?)
            != isWordB ((cs.drop ps.length).head?)) then
      repl ++ subWordCIAux p ps repl ps.length (some c) cs
    else
      c :: subWordCIAux p ps repl 0 (some c) cs

/-- `re.sub(r'\b' + re.escape(pat) + r'\b', repl, s, flags=re.IGNORECASE)`. -/
def pySubWordCI (pat repl s : String) : String :=
  match pat.toList with
  | [] => s
  | p :: ps => (subWordCIAux p ps repl.toList 0 none s.toList).asString

/-- Stable insertion into a list sorted by descending original-name
length: the inserted element goes after every element whose name is at
least as long. -/
def insByLen (x : String × String) : List (String × String) → List (String × String)
  | [] => [x]
  | y :: ys => if x.1.length ≤ y.1.length then y :: insByLen x ys else x :: y :: ys

/-- `sorted(self.mapping.items(), key=lambda x: len(x[0]), reverse=True)`:
a stable sort by descending length of the original name. -/
def sortByLenDesc (l : List (String × String)) : List (String × String) :=
  l.foldl (fun acc x => insByLen x acc) []

/-- The body of the per-mapping loop: first substitute the
backtick-delimited form, then the word-boundary-delimited bare form. -/
def applyMapping (sql : String) (m : String × String) : String :=
  let s1 := pySubCI ("`" ++ m.1 ++ "`") ("`" ++ m.2 ++ "`") sql
  pySubWordCI m.1 m.2 s1

/-- `TableMapper.replace_table_names`: fold the per-mapping substitution
over the mappings sorted longest-original-name first. -/
def replace_table_names (mapping : List (String × String)) (sql : String) : String :=
  (sortByLenDesc mapping).foldl applyMapping sql

/-! ## The sandbox manager (src/sandbox/sandbox_manager.py)

The manager talks to two `DBExecutor` objects.  Their concrete behaviour
(driver, network, SQL engine) is external state, abstracted as an
`ExecAPI`: every operation returns the updated executor state together
with an `Except` outcome, mirroring in-place mutation plus exceptions. -/

/-- The sandbox dialect switch performed with `isinstance` checks in
`cleanup_sandbox` and `_get_quote_char`. -/
inductive Dialect where
  | mysql : Dialect
  | pg : Dialect
  | other : Dialect
deriving DecidableEq, Repr

/-- The capability set of `DBExecutor` that `SandboxManager` uses, over an
abstract executor state `σ`.  `tableExists` is total because both
implementations catch their own errors and return `False`. -/
structure ExecAPI (σ : Type) where
  tableExists : σ → String → σ × Bool
  getTableCount : σ → String → σ × Except String Nat
  getCreateTableDDL : σ → String → σ × Except String String
  execute : σ → String → Bool → σ × Except String (Option (List StmtResult))

/-- The configuration fields read in `SandboxManager.__init__`, with the
quote characters derived from the executor dialects by `_get_quote_char`
and the sandbox database name used by `_cleanup_mysql_database`. -/
structure MgrCfg where
  copy_thr : Nat := 10000
  sample_size : Nat := 10000
  sampling_strategy : String := "random"
  time_column : String := "created_at"
  batch_size : Nat := 1000
  target_quote : String := "`"
  sandbox_quote : String := "`"
  sandbox_dialect : Dialect := .mysql
  db_name : String := "sandbox"
deriving DecidableEq, Repr

/-- Quote an identifier with the target-side quote character. -/
def qT (cfg : MgrCfg) (name : String) : String :=
  cfg.target_quote ++ name ++ cfg.target_quote

/-- Quote an identifier with the sandbox-side quote character. -/
def qS (cfg : MgrCfg) (name : String) : String :=
  cfg.sandbox_quote ++ name ++ cfg.sandbox_quote

/-- `"RAND()" if self.target_quote == "`" else "RANDOM()"`. -/
def randFunc (cfg : MgrCfg) : String :=
  if cfg.target_quote = "`" then "RAND()" else "RANDOM()"

/-- The SELECT built at the top of `_batch_copy_data`.  Python's
`if limit:` is truthiness: `None` and `0` both take the full-copy branch;
otherwise the sampling strategy picks the ORDER BY clause (unknown
strategies fall back to random, as the `else` does). -/
def mkSelectSql (cfg : MgrCfg) (table : String) (limit : Option Nat) : String :=
  match limit with
  | none => "SELECT * FROM " ++ qT cfg table
  | some l =>
    if l = 0 then "SELECT * FROM " ++ qT cfg table
    else if cfg.sampling_strategy = "random" then
      "SELECT * FROM " ++ qT cfg table ++ " ORDER BY " ++ randFunc cfg
        ++ " LIMIT " ++ toString l
    else if cfg.sampling_strategy = "time_based" then
      "SELECT * FROM " ++ qT cfg table ++ " ORDER BY " ++ qT cfg cfg.time_column
        ++ " DESC LIMIT " ++ toString l
    else
      "SELECT * FROM " ++ qT cfg table ++ " ORDER BY " ++ randFunc cfg
        ++ " LIMIT " ++ toString l

/-- `row[col]` for the columns taken from the first row; rows produced by
one fetch share their key set, so a missing key is degenerate and mapped
to `None`. -/
def rowGet (r : Row) (col : String) : Value :=
  (r.cells.lookup col).getD .vNull

/-- The INSERT statement built for one batch in `_batch_copy_data`:
`INSERT INTO <q>table<q> (cols...) VALUES (...), (...), ...` with
`pySqlLiteral` serializing each cell. -/
def mkInsertSql (cfg : MgrCfg) (table : String) (columns : List String)
    (batch : List Row) : String :=
  let columns_str := String.intercalate ", " (columns.map (qS cfg))
  let values_parts := batch.map (fun row =>
    "(" ++ String.intercalate ", " (columns.map (fun c => pySqlLiteral (rowGet row c))) ++ ")")
  "INSERT INTO " ++ qS cfg table ++ " (" ++ columns_str ++ ") VALUES "
    ++ String.intercalate ", " values_parts

/-- The slicing loop `for i in range(0, total_rows, batch_size)` with
`rows[i:i + batch_size]`, as the list of successive batches.  (Python
raises `ValueError` on step 0; `batch_size = 0` is outside the model and
all theorems assume it positive.) -/
def batchChunks (B : Nat) : List α → List (List α)
  | [] => []
  | c :: cs => ((c :: cs).take B) :: batchChunks B (cs.drop (B - 1))
termination_by l => l.length
decreasing_by simpa using Nat.lt_succ_of_le (Nat.sub_le _ _)

/-- The batch sizes the specification's sentence describes: `ceil(N/B)`
batches of `B` rows each, except a final partial batch of `N mod B` rows
when `B` does not divide `N`.  (This is the spec-side description, to be
compared with `batchChunks`, which is translated from the code.) -/
def sizesList (B : Nat) : Nat → List Nat
  | 0 => []
  | n + 1 =>
    if B = 0 then []
    else if n + 1 ≤ B then [n + 1]
    else B :: sizesList B (n + 1 - B)
termination_by n => n
decreasing_by omega

/-- The insertion loop of `_batch_copy_data`: for each batch build the
INSERT, execute it with `fetch=False` on the sandbox executor, add the
batch length to `inserted_count`; an executor error propagates.  Returns
the sandbox state, the trace of INSERT statements issued, and the final
count. -/
def insertLoop (ES : ExecAPI τ) (cfg : MgrCfg) (table : String)
    (columns : List String) : τ → List (List Row) → Nat →
    τ × List String × Except String Nat
  | sS, [], acc => (sS, [], .ok acc)
  | sS, batch :: rest, acc =>
    let sql := mkInsertSql cfg table columns batch
    match ES.execute sS sql false with
    | (sS', .error e) => (sS', [sql], .error e)
    | (sS', .ok _) =>
      match insertLoop ES cfg table columns sS' rest (acc + batch.length) with
      | (sS'', tr, out) => (sS'', sql :: tr, out)

/-- `SandboxManager._batch_copy_data` (src/sandbox/sandbox_manager.py:55-140):
select the source rows (optionally sampled), return 0 if there are none
(`if not results or not results[0].get("rows")`), otherwise insert them in
batches of `batch_size`.  The `try/except ... raise` wrapper only logs and
re-raises, i.e. is the identity on outcomes.  Returns target state,
sandbox state, the trace of INSERT statements issued to the sandbox
executor, and the copied-row count. -/
def batch_copy_data (ET : ExecAPI σ) (ES : ExecAPI τ) (cfg : MgrCfg)
    (sT : σ) (sS : τ) (table : String) (limit : Option Nat) :
    σ × τ × List String × Except String Nat :=
  match ET.execute sT (mkSelectSql cfg table limit) true with
  | (sT', .error e) => (sT', sS, [], .error e)
  | (sT', .ok res) =>
    match res with
    | none => (sT', sS, [], .ok 0)
    | some [] => (sT', sS, [], .ok 0)
    | some (.write _ _ :: _) => (sT', sS, [], .ok 0)
    | some (.query _ [] :: _) => (sT', sS, [], .ok 0)
    | some (.query _ (row0 :: rest) :: _) =>
      let rows := row0 :: rest
      let columns := row0.cells.map Prod.fst
      match insertLoop ES cfg table columns sS (batchChunks cfg.batch_size rows) 0 with
      | (sS', tr, out) => (sT', sS', tr, out)

/-- `SandboxManager.create_full_copy_table`: fetch the source DDL, execute
it on the sandbox, copy all rows; every error propagates (the handler only
logs and re-raises). -/
def create_full_copy_table (ET : ExecAPI σ) (ES : ExecAPI τ) (cfg : MgrCfg)
    (sT : σ) (sS : τ) (table : String) : σ × τ × Except String Unit :=
  match ET.getCreateTableDDL sT table with
  | (sT', .error e) => (sT', sS, .error e)
  | (sT', .ok ddl) =>
    match ES.execute sS ddl false with
    | (sS', .error e) => (sT', sS', .error e)
    | (sS', .ok _) =>
      match batch_copy_data ET ES cfg sT' sS' table none with
      | (sT'', sS'', _, .error e) => (sT'', sS'', .error e)
      | (sT'', sS'', _, .ok _) => (sT'', sS'', .ok ())

/-- `SandboxManager.create_sampled_table`: as the full copy but with
`limit = sample_size`. -/
def create_sampled_table (ET : ExecAPI σ) (ES : ExecAPI τ) (cfg : MgrCfg)
    (sT : σ) (sS : τ) (table : String) : σ × τ × Except String Unit :=
  match ET.getCreateTableDDL sT table with
  | (sT', .error e) => (sT', sS, .error e)
  | (sT', .ok ddl) =>
    match ES.execute sS ddl false with
    | (sS', .error e) => (sT', sS', .error e)
    | (sS', .ok _) =>
      match batch_copy_data ET ES cfg sT' sS' table (some cfg.sample_size) with
      | (sT'', sS'', _, .error e) => (sT'', sS'', .error e)
      | (sT'', sS'', _, .ok _) => (sT'', sS'', .ok ())

/-- One entry of `sandbox_info["tables"]`. -/
structure TDesc where
  original : String
  original_rows : Nat
  is_sampled : Bool
deriving DecidableEq, Repr

/-- The `sandbox_info` dictionary built by `setup_sandbox`. -/
structure SandboxInfo where
  tables : List TDesc
  sampled_tables : List String
deriving DecidableEq, Repr

/-- The `for table in tables` body of `setup_sandbox`: existence check
(`ValueError` on absence), row count, threshold decision, copy, and
accumulation of `sandbox_info`. -/
def setupLoop (ET : ExecAPI σ) (ES : ExecAPI τ) (cfg : MgrCfg) :
    σ → τ → List String → SandboxInfo → σ × τ × Except String SandboxInfo
  | sT, sS, [], acc => (sT, sS, .ok acc)
  | sT, sS, t :: rest, acc =>
    match ET.tableExists sT t with
    | (sT', false) => (sT', sS, .error ("目标数据库中表不存在: " ++ t))
    | (sT', true) =>
      match ET.getTableCount sT' t with
      | (sT'', .error e) => (sT'', sS, .error e)
      | (sT'', .ok row_count) =>
        if row_count ≤ cfg.copy_thr then
          match create_full_copy_table ET ES cfg sT'' sS t with
          | (sT3, sS3, .error e) => (sT3, sS3, .error e)
          | (sT3, sS3, .ok _) =>
            setupLoop ET ES cfg sT3 sS3 rest
              ⟨acc.tables ++ [⟨t, row_count, false⟩], acc.sampled_tables⟩
        else
          match create_sampled_table ET ES cfg sT'' sS t with
          | (sT3, sS3, .error e) => (sT3, sS3, .error e)
          | (sT3, sS3, .ok _) =>
            setupLoop ET ES cfg sT3 sS3 rest
              ⟨acc.tables ++ [⟨t, row_count, true⟩], acc.sampled_tables ++ [t]⟩

/-- The multi-line table-enumeration query of `_cleanup_mysql_database`. -/
def mysqlGetTablesSql (db_name : String) : String :=
  "\n                SELECT TABLE_NAME \n                FROM information_schema.TABLES \n                WHERE TABLE_SCHEMA = '"
    ++ db_name
    ++ "' \n                AND TABLE_TYPE = 'BASE TABLE'\n            "

/-- `DROP TABLE IF EXISTS \`table\`` as built in `_cleanup_mysql_database`. -/
def mysqlDropSql (table : String) : String :=
  "DROP TABLE IF EXISTS `" ++ table ++ "`"

/-- The table-enumeration query of `_cleanup_postgres_database`. -/
def pgGetTablesSql : String :=
  "\n                SELECT tablename \n                FROM pg_tables \n                WHERE schemaname = 'public'\n            "

/-- The sequence-enumeration query of `_cleanup_postgres_database`. -/
def pgGetSequencesSql : String :=
  "\n                SELECT sequencename \n                FROM pg_sequences \n                WHERE schemaname = 'public'\n            "

/-- `DROP TABLE IF EXISTS "table" CASCADE` as built in
`_cleanup_postgres_database`. -/
def pgDropTableSql (table : String) : String :=
  "DROP TABLE IF EXISTS \"" ++ table ++ "\" CASCADE"

/-- `DROP SEQUENCE IF EXISTS "seq" CASCADE`. -/
def pgDropSeqSql (seq : String) : String :=
  "DROP SEQUENCE IF EXISTS \"" ++ seq ++ "\" CASCADE"

/-- Extraction of one column from every fetched row (`row["TABLE_NAME"]`
etc.); a missing key is Python's `KeyError`, which propagates. -/
def getColumn (key : String) (rows : List Row) : Except String (List String) :=
  rows.mapM (fun r =>
    match r.cells.lookup key with
    | some v => .ok (pyStr v)
    | none => .error ("KeyError: '" ++ key ++ "'"))

/-- The per-item drop loop shared by both cleanup variants: each drop is
wrapped in its own `try/except` that only logs, so the outcome is dropped
and the sweep continues. -/
def dropLoop (ES : ExecAPI τ) (mkSql : String → String) : τ → List String → τ
  | sS, [] => sS
  | sS, t :: rest => dropLoop ES mkSql (ES.execute sS (mkSql t) false).1 rest

/-- The `except` recovery of `_cleanup_mysql_database`: attempt to restore
`FOREIGN_KEY_CHECKS = 1` (its own failure swallowed), then re-raise the
original error. -/
def mysqlCleanupRecover (ES : ExecAPI τ) (sS : τ) (e : String) :
    τ × Except String Unit :=
  ((ES.execute sS "SET FOREIGN_KEY_CHECKS = 1" false).1, .error e)

/-- `SandboxManager._cleanup_mysql_database`
(src/sandbox/sandbox_manager.py:275-316): disable FK checks, enumerate the
base tables of the sandbox schema, drop each (individual failures
swallowed), re-enable FK checks; any error on the non-drop steps triggers
the FK-restoring recovery and re-raises.  Note the early `return` when the
enumeration comes back empty: it skips the FK restore. -/
def cleanup_mysql (ES : ExecAPI τ) (cfg : MgrCfg) (sS : τ) :
    τ × Except String Unit :=
  match ES.execute sS "SET FOREIGN_KEY_CHECKS = 0" false with
  | (s1, .error e) => mysqlCleanupRecover ES s1 e
  | (s1, .ok _) =>
    match ES.execute s1 (mysqlGetTablesSql cfg.db_name) true with
    | (s2, .error e) => mysqlCleanupRecover ES s2 e
    | (s2, .ok res) =>
      match res with
      | none => (s2, .ok ())
      | some [] => (s2, .ok ())
      | some (.write _ _ :: _) => (s2, .ok ())
      | some (.query _ [] :: _) => (s2, .ok ())
      | some (.query _ (r0 :: rs) :: _) =>
        match getColumn "TABLE_NAME" (r0 :: rs) with
        | .error e => mysqlCleanupRecover ES s2 e
        | .ok tables =>
          let s3 := dropLoop ES mysqlDropSql s2 tables
          match ES.execute s3 "SET FOREIGN_KEY_CHECKS = 1" false with
          | (s4, .error e) => mysqlCleanupRecover ES s4 e
          | (s4, .ok _) => (s4, .ok ())

/-- `SandboxManager._cleanup_postgres_database`
(src/sandbox/sandbox_manager.py:318-365): enumerate and drop all public
tables (individual failures swallowed; empty enumeration returns early,
skipping the sequence sweep), then enumerate and drop all public
sequences; non-drop errors re-raise unchanged. -/
def cleanup_pg (ES : ExecAPI τ) (sS : τ) : τ × Except String Unit :=
  match ES.execute sS pgGetTablesSql true with
  | (s1, .error e) => (s1, .error e)
  | (s1, .ok res) =>
    match res with
    | none => (s1, .ok ())
    | some [] => (s1, .ok ())
    | some (.write _ _ :: _) => (s1, .ok ())
    | some (.query _ [] :: _) => (s1, .ok ())
    | some (.query _ (r0 :: rs) :: _) =>
      match getColumn "tablename" (r0 :: rs) with
      | .error e => (s1, .error e)
      | .ok tables =>
        let s2 := dropLoop ES pgDropTableSql s1 tables
        match ES.execute s2 pgGetSequencesSql true with
        | (s3, .error e) => (s3, .error e)
        | (s3, .ok seqRes) =>
          match seqRes with
          | some (.query _ (q0 :: qs) :: _) =>
            match getColumn "sequencename" (q0 :: qs) with
            | .error e => (s3, .error e)
            | .ok seqs => (dropLoop ES pgDropSeqSql s3 seqs, .ok ())
          | _ => (s3, .ok ())

/-- `SandboxManager.cleanup_sandbox` (src/sandbox/sandbox_manager.py:252-273):
dispatch on the sandbox executor's dialect; an unknown dialect raises
`ValueError`; the surrounding `try/except` only logs and re-raises. -/
def cleanup_sandbox (ES : ExecAPI τ) (cfg : MgrCfg) (sS : τ) :
    τ × Except String Unit :=
  match cfg.sandbox_dialect with
  | .mysql => cleanup_mysql ES cfg sS
  | .pg => cleanup_pg ES sS
  | .other => (sS, .error "未知的数据库类型")

/-- `SandboxManager.setup_sandbox` (src/sandbox/sandbox_manager.py:195-250):
run the provisioning loop; on success return `sandbox_info`; on any
exception run `cleanup_sandbox` inside `try: ... except: pass` (the
disposal outcome is discarded, its state changes kept) and re-raise the
original error. -/
def setup_sandbox (ET : ExecAPI σ) (ES : ExecAPI τ) (cfg : MgrCfg)
    (sT : σ) (sS : τ) (tables : List String) :
    σ × τ × Except String SandboxInfo :=
  match setupLoop ET ES cfg sT sS tables ⟨[], []⟩ with
  | (sT', sS', .ok info) => (sT', sS', .ok info)
  | (sT', sS', .error e) =>
    let (sS'', _) := cleanup_sandbox ES cfg sS'
    (sT', sS'', .error e)

/-- Disposal at session level, exactly as the code performs it:
`cleanup_sandbox` runs against the sandbox executor and nothing else —
no code path in the repository invokes `TableMapper.clear`, so the mapper
component passes through untouched. -/
def disposeSession (ES : ExecAPI τ) (cfg : MgrCfg) (m : TableMapper) (sS : τ) :
    TableMapper × τ × Except String Unit :=
  let (sS', r) := cleanup_sandbox ES cfg sS
  (m, sS', r)

/-! ## The sandbox gateway (src/tools/sandbox_tool.py) -/

/-- The state of a `SandboxTool`.  `register_preprocess_sql` and
`register_clean_up_sql` are plain attribute assignments, so an attribute
that was never registered does not exist: `none` models the absent
attribute (reading it raises `AttributeError`), `some s` the registered
value `s`.  `mapping` is the `mapping` dict of the injected
`TableMapper`. -/
structure SandboxToolState where
  preprocess_sql : Option String
  clean_up_sql : Option String
  mapping : List (String × String)
deriving DecidableEq, Repr

/-- `SandboxTool.register_preprocess_sql`. -/
def register_preprocess_sql (t : SandboxToolState) (s : String) : SandboxToolState :=
  { t with preprocess_sql := some s }

/-- `SandboxTool.register_clean_up_sql`. -/
def register_clean_up_sql (t : SandboxToolState) (s : String) : SandboxToolState :=
  { t with clean_up_sql := some s }

/-- The catch-all conversion in `execute_sql`:
`error_msg = f"SQL执行失败: {str(e)}"`. -/
def pyFail (e : String) : String := "SQL执行失败: " ++ e

/-- `str(AttributeError)` for a missing `SandboxTool` attribute. -/
def attrErrMsg (a : String) : String :=
  "'SandboxTool' object has no attribute '" ++ a ++ "'"

/-- `str(TypeError)` raised by `result[:100]` when the executor returned
`None` (which the MySQL executor does after a swallowed failure). -/
def noneSubscriptMsg : String := "'NoneType' object is not subscriptable"

/-- `str(row)` in `_format_results`: the Python dict repr (string values
quoted; internal-quote escaping of `repr` is not modelled — no claim
depends on it). -/
def pyReprVal : Value → String
  | .vNull => "None"
  | .vInt n => toString n
  | .vFloat s => s
  | .vStr s => "'" ++ s ++ "'"

/-- `str(row)` for a dict row. -/
def pyReprRow (r : Row) : String :=
  "\x7b" ++ String.intercalate ", "
    (r.cells.map (fun p => "'" ++ p.1 ++ "': " ++ pyReprVal p.2)) ++ "\x7d"

/-- The body of the `for i, result in enumerate(results, 1)` loop of
`SandboxTool._format_results` (the timing line is omitted with the timing
fields, see the file header; the row preview is capped at 20 rows). -/
def formatParts : List StmtResult → Nat → List String
  | [], _ => []
  | .query sql rows :: rest, i =>
    ("[语句 " ++ toString i ++ "] " ++ sql)
      :: ("返回 " ++ toString rows.length ++ " 行:")
      :: ((if rows.isEmpty then ["(空结果集)"]
           else (rows.take 20).map pyReprRow
             ++ (if rows.length > 20 then
                   ["... (还有 " ++ toString (rows.length - 20) ++ " 行未显示)"]
                 else []))
          ++ [""] ++ formatParts rest (i + 1))
  | .write sql affected :: rest, i =>
    ("[语句 " ++ toString i ++ "] " ++ sql)
      :: ("影响 " ++ toString affected ++ " 行，执行成功")
      :: "" :: formatParts rest (i + 1)

/-- `SandboxTool._format_results`: `None` or an empty list yields the
fixed success text `执行成功，无返回结果`; otherwise the parts are joined
with newlines. -/
def format_results (results : Option (List StmtResult)) : String :=
  match results with
  | none => "执行成功，无返回结果"
  | some [] => "执行成功，无返回结果"
  | some rs => String.intercalate "\n" (formatParts rs 1)

/-- The behaviour of the executor injected into a `SandboxTool`: the
`execute` method over executor state `σ`. -/
def ExecFn (σ : Type) : Type :=
  σ → String → Bool → σ × Except String (Option (List StmtResult))

/-- The tail of `execute_sql` after the main statement ran: the optional
clean-up fixture (`if self.clean_up_sql:` — absent attribute raises
`AttributeError`, empty string is falsy and skips; the logging line
subscripts its result, so a `None` result raises `TypeError`), then the
formatted text of the main results.  All raises are the caught kind and
become `pyFail` text. -/
def gwFinish (ex : ExecFn σ) (tool : SandboxToolState) (s : σ) (tr : List String)
    (results : Option (List StmtResult)) : σ × List String × String :=
  match tool.clean_up_sql with
  | none => (s, tr, pyFail (attrErrMsg "clean_up_sql"))
  | some c =>
    if c ≠ "" then
      match ex s c true with
      | (s', .error e) => (s', tr ++ [c], pyFail e)
      | (s', .ok none) => (s', tr ++ [c], pyFail noneSubscriptMsg)
      | (s', .ok (some _)) => (s', tr ++ [c], format_results results)
    else (s, tr, format_results results)

/-- The middle of `execute_sql`: execute the rewritten SQL (errors become
`pyFail` text), then the clean-up/formatting tail. -/
def gwMain (ex : ExecFn σ) (tool : SandboxToolState) (s : σ) (tr : List String)
    (replaced : String) : σ × List String × String :=
  match ex s replaced true with
  | (s', .error e) => (s', tr ++ [replaced], pyFail e)
  | (s', .ok results) => gwFinish ex tool s' (tr ++ [replaced]) results

/-- `SandboxTool.execute_sql` (src/tools/sandbox_tool.py:38-78): rewrite
table names, run the optional pre-fixture (absent attribute raises
`AttributeError`; a `None` fixture result raises `TypeError` in the
logging line), run the rewritten SQL, run the optional clean-up fixture,
format.  Every exception inside this sequence is caught and converted to
`pyFail` text, so the function is total and always returns a string.
The middle component of the result is the trace of SQL texts submitted to
the executor, in order. -/
def execute_sql (ex : ExecFn σ) (tool : SandboxToolState) (s : σ) (sql : String) :
    σ × List String × String :=
  let replaced := replace_table_names tool.mapping sql
  match tool.preprocess_sql with
  | none => (s, [], pyFail (attrErrMsg "preprocess_sql"))
  | some p =>
    if p ≠ "" then
      match ex s p true with
      | (s', .error e) => (s', [p], pyFail e)
      | (s', .ok none) => (s', [p], pyFail noneSubscriptMsg)
      | (s', .ok (some _)) => gwMain ex tool s' [p] replaced
    else gwMain ex tool s [] replaced

/-! ## Concrete instances

Small closed executors/engines used to evaluate the embedded code at
concrete inputs (for witnesses and counterexamples). -/

/-- A driver session that records every statement it ran and fails exactly
on the statement `"BOOM"` (a stand-in for syntactically invalid SQL). -/
def engBoom : Engine (List String) := fun st s =>
  if s = "BOOM" then (st, .error "You have an error in your SQL syntax")
  else (st ++ [s], .ok ([], 0))

/-- `MySQLExecutor.execute` as the executor behaviour a `SandboxTool`
sees. -/
def mysqlExecFn (eng : Engine ε) : ExecFn (Option (Conn ε)) :=
  fun c sql fetch => mysqlExecute eng c sql fetch

/-- A demo row. -/
def demoRow : Row := ⟨[("id", .vInt 1)]⟩

/-- `n` copies of the demo row. -/
def demoRows (n : Nat) : List Row := List.replicate n demoRow

/-- A read-only target executor over a fictitious table of `rows.length`
rows: every fetch returns `rows`, introspection is consistent with it and
the state never changes. -/
def constFetchAPI (rows : List Row) : ExecAPI Unit where
  tableExists := fun s _ => (s, true)
  getTableCount := fun s _ => (s, .ok rows.length)
  getCreateTableDDL := fun s t => (s, .ok ("CREATE TABLE " ++ t))
  execute := fun s sql _ => (s, .ok (some [.query sql rows]))

/-- A sandbox executor that accepts every write and returns no rows. -/
def okWriteAPI : ExecAPI Unit where
  tableExists := fun s _ => (s, false)
  getTableCount := fun s _ => (s, .error "unused")
  getCreateTableDDL := fun s _ => (s, .error "unused")
  execute := fun s _ _ => (s, .ok none)

/-- A target executor on which no table exists. -/
def noTableAPI : ExecAPI Unit where
  tableExists := fun s _ => (s, false)
  getTableCount := fun s _ => (s, .error "unused")
  getCreateTableDDL := fun s _ => (s, .error "unused")
  execute := fun s _ _ => (s, .ok none)

/-- A sandbox executor whose connection is down: every `execute` raises
(and bumps a counter, so that attempted calls are observable). -/
def downAPI : ExecAPI Nat where
  tableExists := fun s _ => (s, false)
  getTableCount := fun s _ => (s, .error "connection down")
  getCreateTableDDL := fun s _ => (s, .error "connection down")
  execute := fun s _ _ => (s + 1, .error "connection down")

/-- The default manager configuration (all `config.get` defaults). -/
def cfgDefault : MgrCfg := {}

/-- A sandbox database holding the listed tables, with just enough SQL
interpretation for the disposal sweep: the enumeration query returns one
`TABLE_NAME` row per table, a `DROP TABLE IF EXISTS` built for a held
table removes it, everything else succeeds with no rows. -/
def sbTablesAPI : ExecAPI (List String) where
  tableExists := fun s _ => (s, false)
  getTableCount := fun s _ => (s, .error "unused")
  getCreateTableDDL := fun s _ => (s, .error "unused")
  execute := fun s sql _ =>
    if sql = mysqlGetTablesSql cfgDefault.db_name then
      (s, .ok (some [.query sql (s.map (fun t => ⟨[("TABLE_NAME", .vStr t)]⟩))]))
    else
      match s.find? (fun t => sql == mysqlDropSql t) with
      | some t => (s.erase t, .ok none)
      | none => (s, .ok none)

/-- An executor behaviour for the gateway that accepts everything. -/
def nullExecFn : ExecFn Unit := fun s _ _ => (s, .ok (some []))

/-- Configuration with batch size 2 (for small concrete batching runs). -/
def cfgB2 : MgrCfg := { batch_size := 2 }

/-- Configuration with copy threshold 1 and sample size 3 (for a concrete
sampled-copy run over a 2-row table). -/
def cfgC6 : MgrCfg := { copy_thr := 1, sample_size := 3 }

/-- The column list `list(rows[0].keys())` taken by `_batch_copy_data`
from the first fetched row (degenerate empty default for no rows). -/
def colsOf (rows : List Row) : List String :=
  ((rows.head?.getD ⟨[]⟩).cells.map Prod.fst)

/-- Spec-side description of the escaping: every character mapped in one
simultaneous pass, backslash to double backslash, single quote to
backslash-quote (to be compared with the code's sequential `replace`
chain `pyEscape`). -/
def escSpecL : List Char → List Char
  | [] => []
  | c :: cs =>
    (if c = '\\' then ['\\', '\\'] else if c = '\'' then ['\\', '\''] else [c])
      ++ escSpecL cs

/-! ## Helper lemmas -/

theorem replaceChar_append (c : Char) (r a b : List Char) :
    replaceChar c r (a ++ b) = replaceChar c r a ++ replaceChar c r b := by
  induction a with
  | nil => rfl
  | cons x xs ih => simp [replaceChar, ih]

theorem escape_chain (l : List Char) :
    replaceChar '\'' ['\\', '\''] (replaceChar '\\' ['\\', '\\'] l) = escSpecL l := by
  have hbq : ('\\' : Char) ≠ '\'' := by decide
  induction l with
  | nil => rfl
  | cons c cs ih =>
    by_cases hb : c = '\\'
    · subst hb
      simp only [replaceChar, if_pos rfl, replaceChar_append, escSpecL, if_neg hbq]
      simp [ih]
    · by_cases hq : c = '\''
      · subst hq
        simp only [replaceChar, escSpecL, replaceChar_append, if_neg hb, if_pos rfl]
        simp [ih]
      · simp only [replaceChar, escSpecL, replaceChar_append, if_neg hb, if_neg hq]
        simp [ih]

theorem assocSet_lookup_self (l : List (String × String)) (k v : String) :
    (assocSet l k v).lookup k = some v := by
  induction l with
  | nil => simp [assocSet, List.lookup]
  | cons p rest ih =>
    obtain ⟨k', v'⟩ := p
    by_cases h : k' = k
    · subst h; simp [assocSet, List.lookup]
    · have hk : (k == k') = false := beq_eq_false_iff_ne.mpr (Ne.symm h)
      simp [assocSet, h, List.lookup, hk, ih]

theorem assocSet_not_mem (l : List (String × String)) (k v : String)
    (h : k ∉ l.map Prod.fst) : assocSet l k v = l ++ [(k, v)] := by
  induction l with
  | nil => rfl
  | cons p rest ih =>
    obtain ⟨k', v'⟩ := p
    simp only [List.map_cons, List.mem_cons] at h
    push_neg at h
    simp [assocSet, Ne.symm h.1, ih h.2]

theorem mem_insByLen (x z : String × String) (l : List (String × String)) :
    z ∈ insByLen x l ↔ z = x ∨ z ∈ l := by
  induction l with
  | nil => simp [insByLen]
  | cons y ys ih =>
    by_cases h : x.1.length ≤ y.1.length
    · simp only [insByLen, if_pos h, List.mem_cons, ih]
      tauto
    · simp only [insByLen, if_neg h, List.mem_cons]

theorem pairwise_insByLen (x : String × String) (l : List (String × String))
    (h : l.Pairwise (fun a b => b.1.length ≤ a.1.length)) :
    (insByLen x l).Pairwise (fun a b => b.1.length ≤ a.1.length) := by
  induction l with
  | nil => simp [insByLen]
  | cons y ys ih =>
    rcases List.pairwise_cons.mp h with ⟨hy, hys⟩
    by_cases hle : x.1.length ≤ y.1.length
    · rw [insByLen, if_pos hle]
      refine List.pairwise_cons.mpr ⟨?_, ih hys⟩
      intro z hz
      rcases (mem_insByLen x z ys).mp hz with rfl | hzz
      · exact hle
      · exact hy z hzz
    · rw [insByLen, if_neg hle]
      refine List.pairwise_cons.mpr ⟨?_, h⟩
      intro z hz
      rcases List.mem_cons.mp hz with rfl | hzz
      · omega
      · have := hy z hzz; omega

theorem pairwise_sortByLenDesc (l : List (String × String)) :
    (sortByLenDesc l).Pairwise (fun a b => b.1.length ≤ a.1.length) := by
  suffices h : ∀ acc, acc.Pairwise (fun a b => b.1.length ≤ a.1.length) →
      (l.foldl (fun acc x => insByLen x acc) acc).Pairwise
        (fun a b => b.1.length ≤ a.1.length) by
    exact h [] (by simp)
  induction l with
  | nil => intro acc hacc; simpa using hacc
  | cons x xs ih =>
    intro acc hacc
    exact ih _ (pairwise_insByLen x acc hacc)

theorem sizesList_ne_nil (B : Nat) (hB : 0 < B) (n : Nat) (hn : 0 < n) :
    sizesList B n ≠ [] := by
  rcases Nat.exists_eq_succ_of_ne_zero (by omega : n ≠ 0) with ⟨m, hm⟩
  subst hm
  rw [show m.succ = m + 1 from rfl, sizesList, if_neg (by omega : ¬ B = 0)]
  by_cases hc : m + 1 ≤ B <;> simp [hc]

theorem sizesList_sum (B : Nat) (hB : 0 < B) (n : Nat) : (sizesList B n).sum = n := by
  refine sizesList.induct B (fun n => (sizesList B n).sum = n) ?_ ?_ ?_ ?_ n
  · simp [sizesList]
  · intro n h; omega
  · intro n h hle
    rw [show n.succ = n + 1 from rfl, sizesList, if_neg h, if_pos hle]
    simp
  · intro n h hle ih
    rw [show n.succ = n + 1 from rfl, sizesList, if_neg h, if_neg hle]
    simp only [List.sum_cons, ih]
    omega

theorem sizesList_length (B : Nat) (hB : 0 < B) (n : Nat) :
    (sizesList B n).length = (n + B - 1) / B := by
  refine sizesList.induct B (fun n => (sizesList B n).length = (n + B - 1) / B) ?_ ?_ ?_ ?_ n
  · simp only [sizesList, List.length_nil]
    rw [Nat.div_eq_of_lt (by omega)]
  · intro n h; omega
  · intro n h hle
    rw [show n.succ = n + 1 from rfl, sizesList, if_neg h, if_pos hle]
    have h2 : n + 1 + B - 1 = n + 1 * B := by omega
    rw [h2, Nat.add_mul_div_right _ _ hB, Nat.div_eq_of_lt (by omega)]
    simp
  · intro n h hle ih
    rw [show n.succ = n + 1 from rfl, sizesList, if_neg h, if_neg hle]
    simp only [List.length_cons, ih]
    have h2 : n + 1 + B - 1 = (n + 1 - B + B - 1) + B := by omega
    rw [h2, Nat.add_div_right _ hB]

theorem sizesList_dropLast (B : Nat) (hB : 0 < B) (n : Nat) :
    ∀ x ∈ (sizesList B n).dropLast, x = B := by
  refine sizesList.induct B (fun n => ∀ x ∈ (sizesList B n).dropLast, x = B) ?_ ?_ ?_ ?_ n
  · simp [sizesList]
  · intro n h; omega
  · intro n h hle
    rw [show n.succ = n + 1 from rfl, sizesList, if_neg h, if_pos hle]
    simp
  · intro n h hle ih
    rw [show n.succ = n + 1 from rfl, sizesList, if_neg h, if_neg hle]
    rw [List.dropLast_cons_of_ne_nil (sizesList_ne_nil B hB _ (by omega))]
    intro x hx
    rcases List.mem_cons.mp hx with rfl | hx2
    · rfl
    · exact ih x hx2

theorem sizesList_getLast (B : Nat) (hB : 0 < B) (n : Nat) (hmod : n % B ≠ 0) :
    (sizesList B n).getLast? = some (n % B) := by
  refine sizesList.induct B
    (fun n => n % B ≠ 0 → (sizesList B n).getLast? = some (n % B)) ?_ ?_ ?_ ?_ n hmod
  · intro hm; simp at hm
  · intro n h; omega
  · intro n h hle hm
    rw [show n.succ = n + 1 from rfl, sizesList, if_neg h, if_pos hle]
    rcases Nat.lt_or_ge (n + 1) B with hlt | hge
    · simp [Nat.mod_eq_of_lt hlt]
    · have hEq : n + 1 = B := by omega
      rw [show n.succ = n + 1 from rfl, hEq] at hm
      simp at hm
  · intro n h hle ih hm
    rw [show n.succ = n + 1 from rfl, sizesList, if_neg h, if_neg hle]
    have hmod2 : (n + 1) % B = (n + 1 - B) % B := Nat.mod_eq_sub_mod (by omega)
    rw [show n.succ = n + 1 from rfl, hmod2] at hm
    rw [hmod2]
    rcases hS : sizesList B (n + 1 - B) with _ | ⟨y, ys⟩
    · exact absurd hS (sizesList_ne_nil B hB _ (by omega))
    · rw [List.getLast?_cons_cons]
      rw [← hS]
      exact ih hm

theorem batchChunks_map_length (B : Nat) (hB : 0 < B) (l : List α) :
    (batchChunks B l).map List.length = sizesList B l.length := by
  refine batchChunks.induct B
    (fun l => (batchChunks B l).map List.length = sizesList B l.length) ?_ ?_ l
  · simp [batchChunks, sizesList]
  · intro c cs ih
    have hB0 : ¬ B = 0 := by omega
    rw [batchChunks, List.map_cons, ih, List.length_take, List.length_drop,
      List.length_cons, sizesList, if_neg hB0]
    by_cases hle : cs.length + 1 ≤ B
    · rw [if_pos hle, show cs.length - (B - 1) = 0 from by omega,
        show min B (cs.length + 1) = cs.length + 1 from by omega]
      simp [sizesList]
    · rw [if_neg hle, show cs.length - (B - 1) = cs.length + 1 - B from by omega,
        show min B (cs.length + 1) = B from by omega]

theorem insertLoop_spec (ES : ExecAPI τ) (cfg : MgrCfg) (table : String)
    (cols : List String)
    (hins : ∀ s sql, (ES.execute s sql false).2 = .ok none)
    (chunks : List (List Row)) : ∀ (sS : τ) (acc : Nat),
    (insertLoop ES cfg table cols sS chunks acc).2.1
        = chunks.map (mkInsertSql cfg table cols)
    ∧ (insertLoop ES cfg table cols sS chunks acc).2.2
        = .ok (acc + (chunks.map List.length).sum) := by
  induction chunks with
  | nil => intro sS acc; exact ⟨rfl, by simp [insertLoop]⟩
  | cons c cs ih =>
    intro sS acc
    have h := hins sS (mkInsertSql cfg table cols c)
    rcases hE : ES.execute sS (mkInsertSql cfg table cols c) false with ⟨s', r⟩
    rw [hE] at h
    simp only at h
    subst h
    have hrec := ih s' (acc + c.length)
    rcases hR : insertLoop ES cfg table cols s' cs (acc + c.length) with ⟨s2, tr, out⟩
    rw [hR] at hrec
    simp only at hrec
    obtain ⟨h1, h2⟩ := hrec
    subst h1
    constructor
    · simp only [insertLoop, hE, hR, List.map_cons]
    · simp only [insertLoop, hE, hR, h2, List.map_cons, List.sum_cons]
      congr 1
      omega

theorem batch_copy_spec (ET : ExecAPI σ) (ES : ExecAPI τ) (cfg : MgrCfg)
    (sT sT' : σ) (sS : τ) (table q : String) (lim : Option Nat) (rows : List Row)
    (hB : 0 < cfg.batch_size)
    (hfetch : ET.execute sT (mkSelectSql cfg table lim) true
      = (sT', .ok (some [.query q rows])))
    (hins : ∀ s sql, (ES.execute s sql false).2 = .ok none) :
    (batch_copy_data ET ES cfg sT sS table lim).2.2.1
        = (batchChunks cfg.batch_size rows).map (mkInsertSql cfg table (colsOf rows))
    ∧ (batch_copy_data ET ES cfg sT sS table lim).2.2.2 = .ok rows.length := by
  cases rows with
  | nil =>
    unfold batch_copy_data
    rw [hfetch]
    exact ⟨by simp [batchChunks], rfl⟩
  | cons r0 rest =>
    unfold batch_copy_data
    rw [hfetch]
    simp only
    have hloop := insertLoop_spec ES cfg table (r0.cells.map Prod.fst) hins
      (batchChunks cfg.batch_size (r0 :: rest)) sS 0
    rcases hL : insertLoop ES cfg table (r0.cells.map Prod.fst) sS
        (batchChunks cfg.batch_size (r0 :: rest)) 0 with ⟨s2, tr, out⟩
    rw [hL] at hloop
    simp only at hloop
    obtain ⟨h1, h2⟩ := hloop
    subst h1
    have hsum : ((batchChunks cfg.batch_size (r0 :: rest)).map List.length).sum
        = (r0 :: rest).length := by
      rw [batchChunks_map_length _ hB, sizesList_sum _ hB]
    refine ⟨rfl, ?_⟩
    rw [h2, hsum]
    simp

theorem batch_copy_components (ET : ExecAPI σ) (ES : ExecAPI τ) (cfg : MgrCfg)
    (sT sT' : σ) (sS : τ) (table q : String) (lim : Option Nat) (rows : List Row)
    (hB : 0 < cfg.batch_size)
    (hfetch : ET.execute sT (mkSelectSql cfg table lim) true
      = (sT', .ok (some [.query q rows])))
    (hins : ∀ s sql, (ES.execute s sql false).2 = .ok none) :
    ∃ u', batch_copy_data ET ES cfg sT sS table lim
      = (sT', u',
          (batchChunks cfg.batch_size rows).map (mkInsertSql cfg table (colsOf rows)),
          .ok rows.length) := by
  cases rows with
  | nil =>
    refine ⟨sS, ?_⟩
    unfold batch_copy_data
    rw [hfetch]
    simp [batchChunks]
  | cons r0 rest =>
    have hloop := insertLoop_spec ES cfg table (r0.cells.map Prod.fst) hins
      (batchChunks cfg.batch_size (r0 :: rest)) sS 0
    rcases hL : insertLoop ES cfg table (r0.cells.map Prod.fst) sS
        (batchChunks cfg.batch_size (r0 :: rest)) 0 with ⟨s2, tr, out⟩
    rw [hL] at hloop
    simp only at hloop
    obtain ⟨h1, h2⟩ := hloop
    subst h1
    refine ⟨s2, ?_⟩
    unfold batch_copy_data
    rw [hfetch]
    simp only [hL]
    have hsum : ((batchChunks cfg.batch_size (r0 :: rest)).map List.length).sum
        = (r0 :: rest).length := by
      rw [batchChunks_map_length _ hB, sizesList_sum _ hB]
    rw [h2, hsum]
    simp [colsOf]

/-! ## Claim theorems -/

/-- C9: every value serialized into an `INSERT ... VALUES` batch follows
the three-way split of `_batch_copy_data`: `None` is emitted as the
literal `NULL`, numeric values (ints, and floats through their decimal
string) are emitted unquoted, and every other value is wrapped in single
quotes with backslashes and single quotes backslash-escaped in its string
form. -/
theorem value_serialization_spec :
    pySqlLiteral .vNull = "NULL"
    ∧ (∀ n : Int, pySqlLiteral (.vInt n) = toString n)
    ∧ (∀ s : String, pySqlLiteral (.vFloat s) = s)
    ∧ (∀ s : String, pySqlLiteral (.vStr s) = "'" ++ (escSpecL s.toList).asString ++ "'") := by
  refine ⟨rfl, fun n => rfl, fun s => rfl, fun s => ?_⟩
  simp [pySqlLiteral, pyEscape, pyStr, escape_chain]

/-- C5 (counterexample): `add_mapping` with a duplicate original name does
not fail — it silently overwrites the forward entry and accumulates a
second reverse entry, breaking the registry invariant that the first call
had established. -/
theorem add_mapping_overwrites_on_duplicate :
    tmInv (add_mapping TableMapper.empty "a" "x")
    ∧ (add_mapping (add_mapping TableMapper.empty "a" "x") "a" "y").mapping = [("a", "y")]
    ∧ (add_mapping (add_mapping TableMapper.empty "a" "x") "a" "y").reverse_mapping
        = [("x", "a"), ("y", "a")]
    ∧ ¬ tmInv (add_mapping (add_mapping TableMapper.empty "a" "x") "a" "y") := by
  refine ⟨by decide, rfl, rfl, by decide⟩

/-- C5 (amended): `add_mapping` performs no duplicate check and never
raises; it always (over)writes the forward entry for the original name.
When both names are fresh — the only situation arising from correct use —
the registry invariant is preserved. -/
theorem add_mapping_fresh_preserves_invariant (m : TableMapper) (o s : String)
    (hm : tmInv m) (ho : o ∉ m.mapping.map Prod.fst)
    (hs : s ∉ m.reverse_mapping.map Prod.fst) :
    tmInv (add_mapping m o s) ∧ (add_mapping m o s).mapping.lookup o = some s := by
  obtain ⟨h1, h2, h3, h4⟩ := hm
  refine ⟨?_, assocSet_lookup_self _ _ _⟩
  unfold add_mapping tmInv
  rw [assocSet_not_mem _ _ _ ho, assocSet_not_mem _ _ _ hs]
  refine ⟨?_, ?_, ?_, ?_⟩
  · simp only [List.map_append, List.map_cons, List.map_nil]
    simp [List.nodup_append, h1, ho]
  · simp only [List.map_append, List.map_cons, List.map_nil]
    simp [List.nodup_append, h2, hs]
  · intro p hp
    rcases List.mem_append.mp hp with hp1 | hp2
    · exact List.mem_append.mpr (Or.inl (h3 p hp1))
    · simp only [List.mem_singleton] at hp2
      subst hp2
      simp
  · intro p hp
    rcases List.mem_append.mp hp with hp1 | hp2
    · exact List.mem_append.mpr (Or.inl (h4 p hp1))
    · simp only [List.mem_singleton] at hp2
      subst hp2
      simp

/-- Witness for the amended C5 theorem at the empty mapper. -/
theorem add_mapping_fresh_preserves_invariant_witness :
    (tmInv TableMapper.empty
      ∧ "a" ∉ TableMapper.empty.mapping.map Prod.fst
      ∧ "x" ∉ TableMapper.empty.reverse_mapping.map Prod.fst)
    ∧ (tmInv (add_mapping TableMapper.empty "a" "x")
      ∧ (add_mapping TableMapper.empty "a" "x").mapping.lookup "a" = some "x") :=
  ⟨⟨by decide, by decide, by decide⟩,
   add_mapping_fresh_preserves_invariant TableMapper.empty "a" "x"
     (by decide) (by decide) (by decide)⟩

/-- C7: `replace_table_names` applies mappings longest-original-name
first (the sorted mapping list is pairwise length-descending), and on the
spec's prefix-safety scenario — mappings for both `orders` and
`orders_detail` — rewriting `SELECT * FROM orders_detail` substitutes the
longer name intact: the shorter mapping does not corrupt it, because
`orders` is not word-boundary-delimited inside `orders_detail_sbx`. -/
theorem rewrite_longest_first_and_prefix_safe :
    (∀ l : List (String × String),
      (sortByLenDesc l).Pairwise (fun a b => b.1.length ≤ a.1.length))
    ∧ sortByLenDesc [("orders", "orders_sbx"), ("orders_detail", "orders_detail_sbx")]
        = [("orders_detail", "orders_detail_sbx"), ("orders", "orders_sbx")]
    ∧ replace_table_names [("orders", "orders_sbx"), ("orders_detail", "orders_detail_sbx")]
        "SELECT * FROM orders_detail" = "SELECT * FROM orders_detail_sbx" :=
  ⟨pairwise_sortByLenDesc, by decide, by decide⟩

/-- C1 (the code evaluated at a failing input): on the two-statement
batch `INSERT INTO t VALUES (1); BOOM`, whose second statement raises in
the driver, both executors roll the batch back (the committed and pending
session states stay empty — the first statement's effect is discarded),
but only `PGExecutor.execute` propagates the error.  `MySQLExecutor.execute`
has no `raise` in its `except` block, so it falls off the end of the
function and returns Python `None` — a normal return indistinguishable
from a successful `fetch=False` call — contradicting the claim, the base
class `DBExecutor.execute` contract ("执行失败时抛出异常") and the
otherwise-identical PG implementation. -/
theorem mysql_execute_swallows_pg_execute_propagates :
    mysqlExecute engBoom (some ⟨[], []⟩) "INSERT INTO t VALUES (1); BOOM" true
      = (some ⟨[], []⟩, .ok none)
    ∧ pgExecute engBoom (some ⟨[], []⟩) "INSERT INTO t VALUES (1); BOOM" true
      = (some ⟨[], []⟩, .error "You have an error in your SQL syntax") :=
  ⟨rfl, rfl⟩

/-- C2 (the code evaluated at a failing input): `execute_sql` is total in
the embedding — every internal exception is caught and converted to text —
so it always returns a string.  But on syntactically invalid SQL with the
MySQL executor (the only dialect `diag.py` instantiates), the swallowed
executor failure surfaces as `None`, which `_format_results` renders as
the *success* text `执行成功，无返回结果`: the returned string signals
success, not failure.  (Fixtures are registered as empty strings, which
Python treats as falsy and skips.) -/
theorem execute_sql_returns_success_text_on_invalid_sql :
    execute_sql (mysqlExecFn engBoom) ⟨some "", some "", []⟩ (some ⟨[], []⟩) "BOOM"
      = (some ⟨[], []⟩, ["BOOM"], "执行成功，无返回结果") :=
  rfl

/-- C10: when `register_preprocess_sql` was never called, the attribute
read `self.preprocess_sql` raises `AttributeError` inside the `try` block
before the submitted SQL reaches the executor; the gateway therefore
returns the failure text for that `AttributeError` with an empty executor
trace — the submitted SQL is never executed. -/
theorem execute_sql_without_preprocess_registration (σ : Type) (ex : ExecFn σ)
    (tool : SandboxToolState) (s : σ) (sql : String)
    (h : tool.preprocess_sql = none) :
    execute_sql ex tool s sql = (s, [], pyFail (attrErrMsg "preprocess_sql")) := by
  unfold execute_sql
  rw [h]

/-- Witness for the C10 theorem: a concrete unregistered tool. -/
theorem execute_sql_without_preprocess_registration_witness :
    (SandboxToolState.mk none none []).preprocess_sql = none
    ∧ execute_sql nullExecFn ⟨none, none, []⟩ () "SELECT 1"
        = ((), [], pyFail (attrErrMsg "preprocess_sql")) :=
  ⟨rfl, execute_sql_without_preprocess_registration Unit nullExecFn ⟨none, none, []⟩ () "SELECT 1" rfl⟩

/-- C3: whenever the provisioning loop of `setup_sandbox` fails with some
error `e` — for *any* executor behaviour, including a disposal that itself
fails — `cleanup_sandbox` is invoked on the post-failure sandbox state
(the final sandbox state is exactly the state disposal leaves behind), the
disposal outcome is discarded (`except: pass`), and the original error `e`
is re-raised to the caller. -/
theorem setup_sandbox_failure_recovery (σ τ : Type) (ET : ExecAPI σ) (ES : ExecAPI τ)
    (cfg : MgrCfg) (sT : σ) (sS : τ) (tables : List String)
    (sT' : σ) (sS' : τ) (e : String)
    (h : setupLoop ET ES cfg sT sS tables ⟨[], []⟩ = (sT', sS', .error e)) :
    setup_sandbox ET ES cfg sT sS tables
      = (sT', (cleanup_sandbox ES cfg sS').1, .error e) := by
  unfold setup_sandbox
  rw [h]

/-- Witness for the C3 theorem: a missing table aborts provisioning, the
recovery disposal itself fails (`connection down`) and is swallowed, and
the original `ValueError` text — not the disposal error — is what the
caller sees. -/
theorem setup_sandbox_failure_recovery_witness :
    setupLoop noTableAPI downAPI cfgDefault () 0 ["missing"] ⟨[], []⟩
      = ((), 0, .error "目标数据库中表不存在: missing")
    ∧ (cleanup_sandbox downAPI cfgDefault 0).2 = .error "connection down"
    ∧ setup_sandbox noTableAPI downAPI cfgDefault () 0 ["missing"]
      = ((), (cleanup_sandbox downAPI cfgDefault 0).1,
          .error "目标数据库中表不存在: missing") :=
  ⟨rfl, rfl,
   setup_sandbox_failure_recovery Unit Nat noTableAPI downAPI cfgDefault () 0
     ["missing"] () 0 "目标数据库中表不存在: missing" rfl⟩

/-- C4 (counterexample): a disposal that completes successfully — here it
sweeps the one sandbox table and finishes with `.ok ()` — leaves the Name
Mapper registry exactly as it was: nothing in the disposal path touches
the `TableMapper` (no code in the repository calls `TableMapper.clear`),
so after this completed disposal the registry is *not* empty. -/
theorem cleanup_sandbox_leaves_mapper_populated :
    (disposeSession sbTablesAPI cfgDefault
        (add_mapping TableMapper.empty "orders" "orders_sbx") ["orders_sbx"]).2.2
      = .ok ()
    ∧ (disposeSession sbTablesAPI cfgDefault
        (add_mapping TableMapper.empty "orders" "orders_sbx") ["orders_sbx"]).2.1
      = []
    ∧ (disposeSession sbTablesAPI cfgDefault
        (add_mapping TableMapper.empty "orders" "orders_sbx") ["orders_sbx"]).1
      = ⟨[("orders", "orders_sbx")], [("orders_sbx", "orders")]⟩
    ∧ (disposeSession sbTablesAPI cfgDefault
        (add_mapping TableMapper.empty "orders" "orders_sbx") ["orders_sbx"]).1.mapping
      ≠ [] :=
  ⟨rfl, rfl, rfl, by decide⟩

/-- C4 (amended): disposal never touches the Name Mapper — its registry
passes through disposal unchanged, for every executor behaviour and every
mapper state (so it is empty afterwards only if it was empty before) —
and disposal of an already-empty sandbox is a no-op that completes
successfully; running disposal again right after a disposal is likewise a
no-op (idempotence on the swept state). -/
theorem dispose_mapper_unchanged_and_idempotent :
    (∀ (τ : Type) (ES : ExecAPI τ) (cfg : MgrCfg) (m : TableMapper) (s : τ),
      (disposeSession ES cfg m s).1 = m)
    ∧ cleanup_sandbox sbTablesAPI cfgDefault [] = ([], .ok ())
    ∧ cleanup_sandbox sbTablesAPI cfgDefault
        (cleanup_sandbox sbTablesAPI cfgDefault ["t1", "t2"]).1
      = ((cleanup_sandbox sbTablesAPI cfgDefault ["t1", "t2"]).1, .ok ()) :=
  ⟨fun _ _ _ _ _ => rfl, rfl, rfl⟩

/-- C8: for every data transfer of the `N` materialized source rows with
a positive batch size `B` (given a target fetch returning those rows and a
sandbox connection that accepts the INSERTs), `_batch_copy_data` issues
exactly the INSERT statements of the successive `rows[i:i+B]` slices —
`ceil(N/B)` execute calls in all — whose batch sizes are `B` for every
batch except the last, the last being `N mod B` when `B` does not divide
`N`; the reported copied total is `N`; and at `B = 1000, N = 2500` the
slice sizes are exactly `1000, 1000, 500` (three INSERT batches). -/
theorem batch_insert_partitioning (σ τ : Type) (ET : ExecAPI σ) (ES : ExecAPI τ)
    (cfg : MgrCfg) (sT sT' : σ) (sS : τ) (table q : String) (lim : Option Nat)
    (rows : List Row)
    (hB : 0 < cfg.batch_size)
    (hfetch : ET.execute sT (mkSelectSql cfg table lim) true
      = (sT', .ok (some [.query q rows])))
    (hins : ∀ s sql, (ES.execute s sql false).2 = .ok none) :
    (batch_copy_data ET ES cfg sT sS table lim).2.2.1
        = (batchChunks cfg.batch_size rows).map (mkInsertSql cfg table (colsOf rows))
    ∧ (batch_copy_data ET ES cfg sT sS table lim).2.2.1.length
        = (rows.length + cfg.batch_size - 1) / cfg.batch_size
    ∧ (batchChunks cfg.batch_size rows).map List.length
        = sizesList cfg.batch_size rows.length
    ∧ (∀ x ∈ (sizesList cfg.batch_size rows.length).dropLast, x = cfg.batch_size)
    ∧ (rows.length % cfg.batch_size ≠ 0 →
        (sizesList cfg.batch_size rows.length).getLast?
          = some (rows.length % cfg.batch_size))
    ∧ (batch_copy_data ET ES cfg sT sS table lim).2.2.2 = .ok rows.length
    ∧ (batchChunks 1000 (demoRows 2500)).map List.length = [1000, 1000, 500] := by
  obtain ⟨h1, h2⟩ := batch_copy_spec ET ES cfg sT sT' sS table q lim rows hB hfetch hins
  refine ⟨h1, ?_, batchChunks_map_length _ hB _, sizesList_dropLast _ hB _,
    fun hm => sizesList_getLast _ hB _ hm, h2, ?_⟩
  · rw [h1, List.length_map, ← sizesList_length _ hB, ← batchChunks_map_length _ hB,
      List.length_map]
  · rw [batchChunks_map_length 1000 (by norm_num),
      show (demoRows 2500).length = 2500 from by simp [demoRows]]
    norm_num [sizesList]

/-- Witness for the C8 theorem: copying 5 rows with batch size 2 issues
3 INSERT batches and reports 5 copied rows. -/
theorem batch_insert_partitioning_witness :
    (batch_copy_data (constFetchAPI (demoRows 5)) okWriteAPI cfgB2 () () "t" none).2.2.1.length = 3
    ∧ (batch_copy_data (constFetchAPI (demoRows 5)) okWriteAPI cfgB2 () () "t" none).2.2.2
        = .ok 5 := by
  have h := batch_insert_partitioning Unit Unit (constFetchAPI (demoRows 5)) okWriteAPI
    cfgB2 () () () "t" (mkSelectSql cfgB2 "t" none) none (demoRows 5)
    (by norm_num [cfgB2]) rfl (fun s sql => rfl)
  refine ⟨?_, ?_⟩
  · rw [h.2.1]
    norm_num [demoRows, cfgB2]
  · rw [h.2.2.2.2.2.1]
    norm_num [demoRows]

/-- C6: for a table `t` with `n` source rows, provisioned by
`setup_sandbox` over executors obeying standard SQL read semantics (the
introspection hypotheses; in particular the `LIMIT sample_size` fetch
returns `min sample_size n` rows): the descriptor records
`is_sampled = (copy_thr < n)` — full copy at `n ≤ copy_thr`, sampled
above — and the data transfer copies all `n` rows in the full-copy case
and exactly `min sample_size n` rows in the sampled case. -/
theorem setup_copy_strategy (σ τ : Type) (ET : ExecAPI σ) (ES : ExecAPI τ)
    (cfg : MgrCfg) (t ddl qf qs : String) (n : Nat) (rowsF rowsS : List Row)
    (sT : σ) (sS : τ)
    (hB : 0 < cfg.batch_size)
    (hex : ∀ s, ET.tableExists s t = (s, true))
    (hcount : ∀ s, ET.getTableCount s t = (s, .ok n))
    (hddl : ∀ s, ET.getCreateTableDDL s t = (s, .ok ddl))
    (hfull : ∀ s, ET.execute s (mkSelectSql cfg t none) true
      = (s, .ok (some [.query qf rowsF])))
    (hsamp : ∀ s, ET.execute s (mkSelectSql cfg t (some cfg.sample_size)) true
      = (s, .ok (some [.query qs rowsS])))
    (hwrite : ∀ s sql, (ES.execute s sql false).2 = .ok none)
    (hlenF : rowsF.length = n)
    (hlenS : rowsS.length = min cfg.sample_size n) :
    (setup_sandbox ET ES cfg sT sS [t]).2.2
      = .ok ⟨[⟨t, n, decide (cfg.copy_thr < n)⟩],
          if cfg.copy_thr < n then [t] else []⟩
    ∧ (batch_copy_data ET ES cfg sT sS t none).2.2.2 = .ok n
    ∧ (batch_copy_data ET ES cfg sT sS t (some cfg.sample_size)).2.2.2
        = .ok (min cfg.sample_size n) := by
  have hcf : ∀ (s : σ) (u : τ), ∃ u',
      create_full_copy_table ET ES cfg s u t = (s, u', .ok ()) := by
    intro s u
    rcases hE : ES.execute u ddl false with ⟨u1, r⟩
    have hr := hwrite u ddl
    rw [hE] at hr
    simp only at hr
    subst hr
    obtain ⟨u2, hbc⟩ := batch_copy_components ET ES cfg s s u1 t qf none rowsF hB
      (hfull s) hwrite
    refine ⟨u2, ?_⟩
    simp only [create_full_copy_table, hddl, hE, hbc]
  have hcs : ∀ (s : σ) (u : τ), ∃ u',
      create_sampled_table ET ES cfg s u t = (s, u', .ok ()) := by
    intro s u
    rcases hE : ES.execute u ddl false with ⟨u1, r⟩
    have hr := hwrite u ddl
    rw [hE] at hr
    simp only at hr
    subst hr
    obtain ⟨u2, hbc⟩ := batch_copy_components ET ES cfg s s u1 t qs
      (some cfg.sample_size) rowsS hB (hsamp s) hwrite
    refine ⟨u2, ?_⟩
    simp only [create_sampled_table, hddl, hE, hbc]
  refine ⟨?_, ?_, ?_⟩
  · by_cases hthr : n ≤ cfg.copy_thr
    · obtain ⟨u', hcf'⟩ := hcf sT sS
      have hloop : setupLoop ET ES cfg sT sS [t] ⟨[], []⟩
          = (sT, u', .ok ⟨[⟨t, n, false⟩], []⟩) := by
        unfold setupLoop
        rw [hex sT]
        simp only
        rw [hcount sT]
        simp only [if_pos hthr]
        rw [hcf']
        simp [setupLoop]
      unfold setup_sandbox
      rw [hloop]
      simp [Nat.not_lt.mpr hthr]
    · obtain ⟨u', hcs'⟩ := hcs sT sS
      have hlt : cfg.copy_thr < n := Nat.lt_of_not_le hthr
      have hloop : setupLoop ET ES cfg sT sS [t] ⟨[], []⟩
          = (sT, u', .ok ⟨[⟨t, n, true⟩], [t]⟩) := by
        unfold setupLoop
        rw [hex sT]
        simp only
        rw [hcount sT]
        simp only [if_neg hthr]
        rw [hcs']
        simp [setupLoop]
      unfold setup_sandbox
      rw [hloop]
      simp [hlt]
  · obtain ⟨u2, hbc⟩ := batch_copy_components ET ES cfg sT sT sS t qf none rowsF hB
      (hfull sT) hwrite
    rw [hbc, hlenF]
  · obtain ⟨u2, hbc⟩ := batch_copy_components ET ES cfg sT sT sS t qs
      (some cfg.sample_size) rowsS hB (hsamp sT) hwrite
    rw [hbc, hlenS]

/-- Witness for the C6 theorem: a 2-row table with `copy_thr = 1` and
`sample_size = 3` is provisioned as a sampled table and the transfer
copies `min 3 2 = 2` rows. -/
theorem setup_copy_strategy_witness :
    (setup_sandbox (constFetchAPI (demoRows 2)) okWriteAPI cfgC6 () () ["t"]).2.2
      = .ok ⟨[⟨"t", 2, true⟩], ["t"]⟩
    ∧ (batch_copy_data (constFetchAPI (demoRows 2)) okWriteAPI cfgC6 () () "t"
        (some cfgC6.sample_size)).2.2.2 = .ok 2 := by
  have h := setup_copy_strategy Unit Unit (constFetchAPI (demoRows 2)) okWriteAPI
    cfgC6 "t" "CREATE TABLE t" (mkSelectSql cfgC6 "t" none)
    (mkSelectSql cfgC6 "t" (some cfgC6.sample_size)) 2 (demoRows 2) (demoRows 2)
    () () (by norm_num [cfgC6]) (fun s => rfl) (fun s => rfl) (fun s => rfl)
    (fun s => rfl) (fun s => rfl) (fun s sql => rfl) (by simp [demoRows])
    (by simp [demoRows, cfgC6])
  refine ⟨?_, ?_⟩
  · rw [h.1]
    norm_num [cfgC6]
  · rw [h.2.2]
    norm_num [cfgC6]

end AstraTune
